import Mathlib

/-!
Verification of the bilibili_dynamic_download core (`Dynamic.py`) against its
natural-language specification.  The data model and the operations below are a
shallow embedding of the Python source: pure functions become Lean functions,
exceptions become `Except`, the filesystem and network are passed explicitly.
-/

namespace BiliDyn

/-! ## Data model: raw feed items and normalized records (`Dynamic.py` 85-94, 821-866) -/

/-- The `major` content block of `modules.module_dynamic` in a raw feed item.
`archive` is the shape read by the `DYNAMIC_TYPE_AV` branch, `draw` the shape
read by the `DYNAMIC_TYPE_DRAW` branch; `other` stands for any other shape,
whose field accesses raise `KeyError` in the Python code. -/
inductive MajorContent where
  | archive (title desc cover jump_url : String)
  | draw (srcs : List String)
  | other
deriving Repr, DecidableEq

/-- A raw feed item, restricted to the fields `getdata` and `toDynamicData`
access.  `Option` marks fields whose access in the source can raise
(`KeyError`/`TypeError`): `tagText` is `modules.module_tag.text` (its absence is
caught in `getdata` and treated as the empty string), `desc_text` is
`modules.module_dynamic.desc.text`, `major` is `modules.module_dynamic.major`
(`none` models JSON `null`, which the DRAW branch tests for), `orig_id_str` is
`orig.id_str`.  `dtype` is the raw `type` field. -/
structure RawItem where
  id_str : String
  tagText : Option String
  comment_id_str : String
  comment_type : Nat
  dtype : String
  desc_text : Option String
  major : Option MajorContent
  orig_id_str : Option String
deriving Repr, DecidableEq

/-- Normalized record, mirroring the keys of the class-level `datajson`
template (`Dynamic.py` 85-94). -/
structure DynData where
  id : String
  aid : String
  comment_type : Nat
  dtype : String
  title : String
  text : String
  imagepath : List String
  videopath : String
deriving Repr, DecidableEq

/-- The `datajson` template value (`Dynamic.py` 85-94).  The numeric
`comment_type` field defaults to 0 where the Python template holds `''`. -/
def datajson : DynData :=
  { id := "", aid := "", comment_type := 0, dtype := "",
    title := "", text := "", imagepath := [], videopath := "" }

/-- `Dynamic.toDynamicData` (`Dynamic.py` 821-866).  Field accesses that the
source leaves unguarded surface as `.error "KeyError"`; the only guarded access
is the AV branch's `desc.text` (caught and replaced by the empty string). -/
def toDynamicData (item : RawItem) : Except String DynData :=
  let base : DynData :=
    { datajson with
      id := item.id_str, aid := item.comment_id_str,
      comment_type := item.comment_type, dtype := item.dtype }
  if item.dtype = "DYNAMIC_TYPE_AV" then
    match item.major with
    | some (.archive title desc cover jump_url) =>
      let a := item.desc_text.getD ""
      let a := if a ≠ "" then "投稿动态：" ++ a ++ "\n\n" else a
      .ok { base with
            title := a ++ title, text := desc,
            imagepath := [cover], videopath := "https:" ++ jump_url }
    | _ => .error "KeyError"
  else if item.dtype = "DYNAMIC_TYPE_DRAW" then
    match item.desc_text with
    | none => .error "KeyError"
    | some t =>
      match item.major with
      | none => .ok { base with title := "图文动态", text := t, imagepath := [] }
      | some (.draw srcs) =>
        .ok { base with title := "图文动态", text := t, imagepath := srcs }
      | some _ => .error "KeyError"
  else if item.dtype = "DYNAMIC_TYPE_WORD" then
    match item.desc_text with
    | none => .error "KeyError"
    | some t => .ok { base with title := "文字动态", text := t }
  else if item.dtype = "DYNAMIC_TYPE_FORWARD" then
    match item.orig_id_str with
    | none => .error "KeyError"
    | some oid =>
      match item.desc_text with
      | none => .error "KeyError"
      | some t => .ok { base with title := "转发的动态链接：" ++ oid, text := t }
  else
    .ok { base with text := "暂不支持的类型" }

/-- Every branch of `toDynamicData` copies `id_str` into the record's `id`. -/
theorem toDynamicData_id (item : RawItem) (d : DynData)
    (h : toDynamicData item = .ok d) : d.id = item.id_str := by
  unfold toDynamicData at h
  repeat' split at h
  all_goals
    first
      | (injection h with h; subst h; rfl)
      | simp_all

/-! ## Feed Walker (`Dynamic.getdata`, `Dynamic.py` 436-547)

A producer's feed is modelled as the list of pages the server would serve in
cursor order; each page carries its `has_more` flag.  The in-memory ledger
`self.dyidlist[upid]` is the `ledger` argument: the source never touches it
during a run (it is reloaded from the CSV only by the final `updylist` call),
so it is a constant list here.  `writeOk id` tells whether the CSV append for
a given id succeeds (`False` models the caught `PermissionError`).
`downAtFirst` and `autodownload` are the two config flags gating downloads. -/

/-- One feed page: `data.items` plus the server's `has_more` flag. -/
structure Page where
  items : List RawItem
  hasMore : Bool
deriving Repr, DecidableEq

/-- The branch `getdata` takes for a page (`Dynamic.py` 468-490): raise an
uncaught `IndexError`, skip the page, or fall through to the item loop. -/
inductive PageDecision where
  | err (e : String)
  | skip
  | process
deriving Repr, DecidableEq

/-- Page-boundary decision of `getdata` (`Dynamic.py` 468-490).
`dytype` is `items[0].modules.module_tag.text` with `KeyError` caught as `''`
(but `items[0]` itself out of range is an uncaught `IndexError`).  The pinned
branch tests membership of `items[0].id_str` and `items[1].id_str` in the
ledger (short-circuit: `items[1]` is only indexed when `items[0]` was found);
the non-pinned branch compares `items[0].id_str` with the ledger's LAST
element. -/
def pageDecision (ledger : List String) (items : List RawItem) : PageDecision :=
  match items with
  | [] => .err "IndexError"
  | i0 :: tl =>
    if i0.tagText.getD "" = "置顶" then
      if ledger ≠ [] ∧ i0.id_str ∈ ledger then
        match tl with
        | [] => .err "IndexError"
        | i1 :: _ => if i1.id_str ∈ ledger then .skip else .process
      else .process
    else
      if ledger ≠ [] ∧ i0.id_str = ledger.getLastD "" then .skip else .process

/-- Item loop of `getdata` (`Dynamic.py` 493-537), already given the reversed
page (`items[::-1]`).  Returns `(rows, processed, downloads)`:
`rows` are the records whose CSV append succeeded, in write order;
`processed` are the records that passed the dedup check (logged, appended,
commented, download-attempted); `downloads` are those for which
`downimage`/`downvideo` ran (both config flags true).  A `toDynamicData`
exception is NOT caught (the call at line 494 sits before the `try`), so it
aborts the whole run; the `try`/`except` at 495-500 only guards the membership
test, which cannot fail here.  A failed CSV append (`PermissionError`, line
521-522) is logged and the item's processing continues; the in-memory ledger
is not updated in either case. -/
def processItems (ledger : List String) (writeOk : String → Bool)
    (downAtFirst autodownload : Bool) :
    List RawItem → Except String (List DynData × List DynData × List DynData)
  | [] => .ok ([], [], [])
  | it :: rest =>
    match toDynamicData it with
    | .error e => .error e
    | .ok dali =>
      if dali.id ∈ ledger then processItems ledger writeOk downAtFirst autodownload rest
      else
        match processItems ledger writeOk downAtFirst autodownload rest with
        | .error e => .error e
        | .ok (r, pr, dl) =>
          .ok ((if writeOk dali.id then [dali] else []) ++ r,
               dali :: pr,
               (if downAtFirst && autodownload then [dali] else []) ++ dl)

/-- Page loop of `getdata` (`Dynamic.py` 452-544), over the remaining pages.
On a `.skip` decision the code returns when `has_more` is false and otherwise
continues with the next page; on `.process` it runs the item loop on the
reversed page and then either breaks (`has_more` false) or continues. -/
def getdataPages (ledger : List String) (writeOk : String → Bool)
    (downAtFirst autodownload : Bool) :
    List Page → Except String (List DynData × List DynData × List DynData)
  | [] => .ok ([], [], [])
  | p :: rest =>
    match pageDecision ledger p.items with
    | .err e => .error e
    | .skip =>
      if p.hasMore then getdataPages ledger writeOk downAtFirst autodownload rest
      else .ok ([], [], [])
    | .process =>
      match processItems ledger writeOk downAtFirst autodownload p.items.reverse with
      | .error e => .error e
      | .ok (r, pr, dl) =>
        if p.hasMore then
          match getdataPages ledger writeOk downAtFirst autodownload rest with
          | .error e => .error e
          | .ok (r2, pr2, dl2) => .ok (r ++ r2, pr ++ pr2, dl ++ dl2)
        else .ok (r, pr, dl)

/-- One full `getdata` run followed by the trailing `updylist` reload
(`Dynamic.py` 547, 406-434): at run start the in-memory ledger equals the CSV
contents, and the reload returns the CSV extended by exactly the successfully
appended rows.  Result: `(reloaded ledger, rows, processed, downloads)`. -/
def syncOnce (ledger : List String) (writeOk : String → Bool)
    (downAtFirst autodownload : Bool) (pages : List Page) :
    Except String (List String × List DynData × List DynData × List DynData) :=
  match getdataPages ledger writeOk downAtFirst autodownload pages with
  | .error e => .error e
  | .ok (r, pr, dl) => .ok (ledger ++ r.map (fun d => d.id), r, pr, dl)

/-- Reloaded ledger of a completed run (`[]` if the run aborted). -/
def syncLedgerAfter
    (r : Except String (List String × List DynData × List DynData × List DynData)) :
    List String :=
  match r with
  | .ok (l, _, _, _) => l
  | .error _ => []

/-- Ids of the rows a run appended to the CSV (`[]` if the run aborted). -/
def syncRowIds
    (r : Except String (List String × List DynData × List DynData × List DynData)) :
    List String :=
  match r with
  | .ok (_, rows, _, _) => rows.map (fun d => d.id)
  | .error _ => []

/-- Ids of the items a run treated as new (`[]` if the run aborted). -/
def syncProcessedIds
    (r : Except String (List String × List DynData × List DynData × List DynData)) :
    List String :=
  match r with
  | .ok (_, _, pr, _) => pr.map (fun d => d.id)
  | .error _ => []

/-- Ids of the items a run attempted to download (`[]` if the run aborted). -/
def syncDownloadIds
    (r : Except String (List String × List DynData × List DynData × List DynData)) :
    List String :=
  match r with
  | .ok (_, _, _, dl) => dl.map (fun d => d.id)
  | .error _ => []

/-- A minimal well-formed text post (`DYNAMIC_TYPE_WORD`) with the given id. -/
def wordItem (i : String) : RawItem :=
  { id_str := i, tagText := none, comment_id_str := i, comment_type := 17,
    dtype := "DYNAMIC_TYPE_WORD", desc_text := some "t",
    major := none, orig_id_str := none }

/-- A pinned variant of `wordItem`: `modules.module_tag.text` is `置顶`. -/
def pinnedItem (i : String) : RawItem :=
  { wordItem i with tagText := some "置顶" }

/-- A malformed text post: `modules.module_dynamic.desc` is missing, so
`toDynamicData` raises `KeyError` on it. -/
def badItem : RawItem :=
  { wordItem "bad" with desc_text := none }

/-! ## Walker lemmas -/

/-- If every item of a list already has its id in the ledger, the item loop
contributes nothing (each item is skipped by the dedup check). -/
theorem processItems_covered (ledger : List String) (w : String → Bool) (a b : Bool)
    (its : List RawItem) :
    (∀ it ∈ its, it.id_str ∈ ledger) →
    ∀ x, processItems ledger w a b its = .ok x → x = ([], [], []) := by
  induction its with
  | nil =>
    intro _ x h
    rw [processItems] at h
    injection h with h
    exact h.symm
  | cons it rest ih =>
    intro hcov x h
    rw [processItems] at h
    cases htd : toDynamicData it with
    | error e => rw [htd] at h; exact absurd h (by simp)
    | ok d =>
      rw [htd] at h
      dsimp only at h
      have hid : d.id ∈ ledger := by
        rw [toDynamicData_id it d htd]
        exact hcov it (List.mem_cons_self it rest)
      rw [if_pos hid] at h
      exact ih (fun i hi => hcov i (List.mem_cons_of_mem _ hi)) x h

/-- If every feed item's id is already in the ledger, a completed page walk
appends, processes and downloads nothing. -/
theorem getdataPages_covered (ledger : List String) (w : String → Bool) (a b : Bool)
    (pages : List Page) :
    (∀ p ∈ pages, ∀ it ∈ p.items, it.id_str ∈ ledger) →
    ∀ x, getdataPages ledger w a b pages = .ok x → x = ([], [], []) := by
  induction pages with
  | nil =>
    intro _ x h
    rw [getdataPages] at h
    injection h with h
    exact h.symm
  | cons p rest ih =>
    intro hcov x h
    rw [getdataPages] at h
    have ihr := ih (fun q hq => hcov q (List.mem_cons_of_mem _ hq))
    cases hd : pageDecision ledger p.items with
    | err e => rw [hd] at h; exact absurd h (by simp)
    | skip =>
      rw [hd] at h
      cases hm : p.hasMore with
      | true => rw [hm] at h; exact ihr x (by simpa using h)
      | false =>
        rw [hm] at h
        simp only [Bool.false_eq_true, if_false] at h
        injection h with h
        exact h.symm
    | process =>
      rw [hd] at h
      cases hpi : processItems ledger w a b p.items.reverse with
      | error e => rw [hpi] at h; exact absurd h (by simp)
      | ok y =>
        obtain ⟨r, pr, dl⟩ := y
        have hy : (r, pr, dl) = (([], [], []) :
            List DynData × List DynData × List DynData) :=
          processItems_covered ledger w a b p.items.reverse
            (fun it hi =>
              hcov p (List.mem_cons_self p rest) it (List.mem_reverse.mp hi)) _ hpi
        rw [hpi] at h
        obtain ⟨hr, hpr, hdl⟩ : r = [] ∧ pr = [] ∧ dl = [] := by simpa using hy
        subst hr; subst hpr; subst hdl
        cases hm : p.hasMore with
        | true =>
          rw [hm] at h
          simp only [if_true] at h
          cases hrest : getdataPages ledger w a b rest with
          | error e => rw [hrest] at h; exact absurd h (by simp)
          | ok y2 =>
            obtain ⟨r2, pr2, dl2⟩ := y2
            have := ihr _ hrest
            rw [hrest] at h
            injection h with h
            simp only [List.nil_append] at h
            rw [← h]
            exact this
        | false =>
          rw [hm] at h
          simp only [Bool.false_eq_true, if_false] at h
          injection h with h
          exact h.symm

/-! ## Claim C1 — idempotence of sync -/

/-- C1, counterexample.  Producer ledger `["b"]`, unchanged two-page feed:
page 1 is `[b, x]` with more pages, page 2 is `[c]`.  The first completed sync
appends only `c` (page 1 is skipped because its first id equals the last
ledgered id) and reloads the ledger as `["b", "c"]`.  The second sync, with no
new upstream items, appends the row `x`: one new row, not zero, so the claim
is false. -/
theorem sync_not_idempotent_cex :
    syncLedgerAfter (syncOnce ["b"] (fun _ => true) true true
      [⟨[wordItem "b", wordItem "x"], true⟩, ⟨[wordItem "c"], false⟩]) = ["b", "c"]
    ∧ syncRowIds (syncOnce ["b", "c"] (fun _ => true) true true
      [⟨[wordItem "b", wordItem "x"], true⟩, ⟨[wordItem "c"], false⟩]) = ["x"]
    ∧ (["x"] : List String) ≠ [] :=
  ⟨rfl, rfl, by decide⟩

/-- C1, amended: a completed sync appends zero new rows whenever every item id
of the upstream feed is already in the loaded ledger (which holds after a
first sync that reached every feed item, but not when the boundary rule
skipped a page containing an unledgered item). -/
theorem sync_idempotent_when_ledger_covers_feed
    (ledger : List String) (w : String → Bool) (a b : Bool) (pages : List Page)
    (hcov : ∀ p ∈ pages, ∀ it ∈ p.items, it.id_str ∈ ledger)
    (L : List String) (r pr dl : List DynData)
    (h : syncOnce ledger w a b pages = .ok (L, r, pr, dl)) :
    r = [] ∧ L = ledger := by
  unfold syncOnce at h
  cases hg : getdataPages ledger w a b pages with
  | error e => rw [hg] at h; exact absurd h (by simp)
  | ok y =>
    obtain ⟨r0, pr0, dl0⟩ := y
    have hy : (r0, pr0, dl0) = (([], [], []) :
        List DynData × List DynData × List DynData) :=
      getdataPages_covered ledger w a b pages hcov _ hg
    rw [hg] at h
    injection h with h
    obtain ⟨hr0, _, _⟩ : r0 = [] ∧ pr0 = [] ∧ dl0 = [] := by simpa using hy
    subst hr0
    simp only [List.map_nil, List.append_nil, Prod.mk.injEq] at h
    exact ⟨h.2.1.symm, h.1.symm⟩

/-- Witness for `sync_idempotent_when_ledger_covers_feed` at a concrete
input: ledger `["a"]`, a single exhausted page `[a]`. -/
theorem sync_idempotent_when_ledger_covers_feed_witness :
    ([] : List DynData) = [] ∧ (["a"] : List String) = ["a"] :=
  sync_idempotent_when_ledger_covers_feed ["a"] (fun _ => true) true true
    [⟨[wordItem "a"], false⟩] (by decide) ["a"] [] [] [] rfl

/-! ## Claim C2 — pinned-item boundary -/

/-- C2: on a page whose first item is pinned, when the ledger is non-empty and
the ids of the first two items are both in the ledger, the page contributes
nothing (no item is classified or ledgered, whatever items 2.. hold): the walk
returns immediately if the server reports no more pages and otherwise
continues with the next page. -/
theorem pinned_boundary_skips_page
    (ledger : List String) (w : String → Bool) (a b : Bool)
    (i0 i1 : RawItem) (tl : List RawItem) (hm : Bool) (rest : List Page)
    (hpin : i0.tagText.getD "" = "置顶")
    (hne : ledger ≠ [])
    (h0 : i0.id_str ∈ ledger) (h1 : i1.id_str ∈ ledger) :
    getdataPages ledger w a b (⟨i0 :: i1 :: tl, hm⟩ :: rest)
      = if hm then getdataPages ledger w a b rest else .ok ([], [], []) := by
  have hd : pageDecision ledger (i0 :: i1 :: tl) = .skip := by
    unfold pageDecision
    dsimp only
    rw [if_pos hpin, if_pos ⟨hne, h0⟩, if_pos h1]
  rw [getdataPages, hd]

/-- Witness for `pinned_boundary_skips_page`: ledger `["p", "q"]`, a single
exhausted page `[p(pinned), q, new]` where `new` is unledgered; the run ends
with nothing processed. -/
theorem pinned_boundary_skips_page_witness :
    getdataPages ["p", "q"] (fun _ => true) true true
      [⟨[pinnedItem "p", wordItem "q", wordItem "new"], false⟩]
      = .ok ([], [], []) := by
  have h := pinned_boundary_skips_page ["p", "q"] (fun _ => true) true true
    (pinnedItem "p") (wordItem "q") [wordItem "new"] false []
    rfl (by decide) (by decide) (by decide)
  simpa using h

/-! ## Claim C3 — non-pinned stop rule -/

/-- C3, counterexample.  Ledger `["a", "b"]`, single page `[a, y]` with a
non-pinned first item whose id `a` IS a member of the ledger: the claim says
the walker stops and processes nothing, but since `a` is not the LAST ledger
entry the code processes the page and treats `y` as new. -/
theorem nonpinned_membership_stop_cex :
    ("a" ∈ (["a", "b"] : List String))
    ∧ syncProcessedIds (syncOnce ["a", "b"] (fun _ => true) true true
        [⟨[wordItem "a", wordItem "y"], false⟩]) = ["y"]
    ∧ (["y"] : List String) ≠ [] :=
  ⟨by decide, rfl, by decide⟩

/-- C3, amended: on a page whose first item is not pinned, with a non-empty
ledger, the walker skips the page (processing none of its items) exactly when
the first item's id EQUALS THE LAST id recorded in the ledger list, and it
then returns only when the server reports no more pages, otherwise continuing
with the next page. -/
theorem nonpinned_last_id_stop
    (ledger : List String) (w : String → Bool) (a b : Bool)
    (i0 : RawItem) (tl : List RawItem) (hm : Bool) (rest : List Page)
    (hnp : i0.tagText.getD "" ≠ "置顶")
    (hne : ledger ≠ [])
    (hlast : i0.id_str = ledger.getLastD "") :
    getdataPages ledger w a b (⟨i0 :: tl, hm⟩ :: rest)
      = if hm then getdataPages ledger w a b rest else .ok ([], [], []) := by
  have hd : pageDecision ledger (i0 :: tl) = .skip := by
    unfold pageDecision
    dsimp only
    rw [if_neg hnp, if_pos ⟨hne, hlast⟩]
  rw [getdataPages, hd]

/-- Witness for `nonpinned_last_id_stop`: ledger `["a", "b"]`, a single
exhausted page starting with `b` (the last ledgered id). -/
theorem nonpinned_last_id_stop_witness :
    getdataPages ["a", "b"] (fun _ => true) true true
      [⟨[wordItem "b", wordItem "y"], false⟩] = .ok ([], [], []) := by
  have h := nonpinned_last_id_stop ["a", "b"] (fun _ => true) true true
    (wordItem "b") [wordItem "y"] false []
    (by decide) (by decide) rfl
  simpa using h

/-! ## Claim C4 — classification failure handling -/

/-- C4, counterexample.  Empty ledger, one exhausted page
`[g2, badItem, g1]`; the walk handles items in reverse order `g1, badItem,
g2`.  The claim says the classification failure on `badItem` is caught and
only that item is skipped; in the code `toDynamicData` is called OUTSIDE the
`try`, so the exception propagates: the whole run aborts with the error and
`g2` is never processed. -/
theorem classify_exception_aborts_cex :
    getdataPages [] (fun _ => true) true true
      [⟨[wordItem "g2", badItem, wordItem "g1"], false⟩] = .error "KeyError" := rfl

/-- C4, amended: a classification exception is not caught.  As soon as the
item loop reaches an item whose classification raises (all earlier items of
the reversed page classifying fine), the run aborts with that exception and
no later item of the page is processed. -/
theorem classify_exception_aborts_run
    (ledger : List String) (w : String → Bool) (a b : Bool)
    (pre post : List RawItem) (it : RawItem) (e : String)
    (hok : ∀ p ∈ pre, ∃ d, toDynamicData p = .ok d)
    (hbad : toDynamicData it = .error e) :
    processItems ledger w a b (pre ++ it :: post) = .error e := by
  induction pre with
  | nil => rw [List.nil_append, processItems, hbad]
  | cons p ps ih =>
    rw [List.cons_append, processItems]
    obtain ⟨d, hd⟩ := hok p (List.mem_cons_self p ps)
    rw [hd]
    have ihh := ih (fun q hq => hok q (List.mem_cons_of_mem _ hq))
    dsimp only
    by_cases hmem : d.id ∈ ledger
    · rw [if_pos hmem]; exact ihh
    · rw [if_neg hmem, ihh]

/-- Witness for `classify_exception_aborts_run`: one well-formed item before
the malformed one, one (never reached) after. -/
theorem classify_exception_aborts_run_witness :
    processItems [] (fun _ => true) true true
      [wordItem "g1", badItem, wordItem "g2"] = .error "KeyError" :=
  classify_exception_aborts_run [] (fun _ => true) true true
    [wordItem "g1"] [wordItem "g2"] badItem "KeyError"
    (by intro p hp; simp only [List.mem_singleton] at hp; subst hp; exact ⟨_, rfl⟩)
    rfl

/-! ## Claim C5 — ledger append failure policy -/

/-- C5, counterexample.  Ledger `["z"]`, CSV appends always fail with a
permission error, and the id `x` is served on two successive pages.  The run
is not aborted, but the in-memory ledger is NOT updated: `x` is downloaded
twice within the same run, and the reloaded ledger still lacks `x` — refuting
"the in-memory set is updated so the item is not re-downloaded". -/
theorem append_failure_memory_not_updated_cex :
    syncDownloadIds (syncOnce ["z"] (fun _ => false) true true
        [⟨[wordItem "x"], true⟩, ⟨[wordItem "x"], false⟩]) = ["x", "x"]
    ∧ syncLedgerAfter (syncOnce ["z"] (fun _ => false) true true
        [⟨[wordItem "x"], true⟩, ⟨[wordItem "x"], false⟩]) = ["z"]
    ∧ ("x" : String) ∉ (["z"] : List String) :=
  ⟨rfl, rfl, by decide⟩

/-- C5, amended: a failed CSV append is logged and never aborts the run — the
walk's control flow, the set of items treated as new, and the download
attempts are exactly those of a run in which every append succeeds; the only
difference is that the failed rows are missing from the durable ledger (they
are filtered out of the appended rows).  In particular the in-memory ledger is
not updated for the failed item. -/
theorem append_failure_keeps_processing
    (ledger : List String) (w : String → Bool) (a b : Bool) (its : List RawItem) :
    processItems ledger w a b its
      = (processItems ledger (fun _ => true) a b its).map
          (fun x => (x.1.filter (fun d => w d.id), x.2)) := by
  induction its with
  | nil => rfl
  | cons it rest ih =>
    rw [processItems, processItems]
    cases htd : toDynamicData it with
    | error e => rfl
    | ok d =>
      dsimp only
      by_cases hmem : d.id ∈ ledger
      · rw [if_pos hmem, if_pos hmem]; exact ih
      · rw [if_neg hmem, if_neg hmem, ih]
        cases hpr : processItems ledger (fun _ => true) a b rest with
        | error e => rfl
        | ok y =>
          obtain ⟨r, pr, dl⟩ := y
          dsimp only [Except.map]
          rw [List.filter_append]
          by_cases hw : w d.id
          · simp [hw, List.filter]
          · simp [hw, List.filter]

/-! ## Resumable Downloader (`Dynamic.downfile`, `Dynamic.py` 763-817) -/

/-- Error class of a failed download attempt: a `requests` timeout versus any
other exception (HTTP error status, size-mismatch `ValueError`, ...). -/
inductive DlErr where
  | timeout
  | other
deriving Repr, DecidableEq

/-- Behaviour of one network attempt: raise a timeout after streaming
`delivered` bytes, raise another exception after `delivered` bytes, or
complete a response that announced `contentLength` remaining bytes and
actually streamed `delivered` bytes. -/
inductive AttemptOutcome where
  | timeout (delivered : Nat)
  | raiseErr (delivered : Nat)
  | response (contentLength delivered : Nat)
deriving Repr, DecidableEq

/-- One attempt of `downfile` (`Dynamic.py` 772-801) on a partial file of
`fileSize` bytes.  The resume offset IS the on-disk size (`Range` header);
streamed chunks are appended (mode `ab`, or `wb` on an empty file — same
size effect); the expected total is the reported `content-length` plus the
resume offset, and a completed response whose final on-disk size differs from
a positive expected total raises `ValueError` (line 798-799), keeping the
partial file.  Returns the attempt outcome and the new on-disk size. -/
def downfileAttempt (fileSize : Nat) (o : AttemptOutcome) : Except DlErr Unit × Nat :=
  match o with
  | .timeout d => (.error .timeout, fileSize + d)
  | .raiseErr d => (.error .other, fileSize + d)
  | .response contentLength d =>
    let total := contentLength + fileSize
    let ns := fileSize + d
    if 0 < total ∧ ns ≠ total then (.error .other, ns) else (.ok (), ns)

/-- Retry loop of `downfile` (`Dynamic.py` 772-817); the list holds the
outcomes of the up to `max_retries` attempts in order.  A successful attempt
returns `True`; a failed attempt sleeps and retries while attempts remain and
otherwise RE-RAISES the exception (`raise`, lines 809 and 815).  The trailing
`return False` (line 817) is reached only when `max_retries = 0`. -/
def downfileLoop (fileSize : Nat) : List AttemptOutcome → Except DlErr Bool × Nat
  | [] => (.ok false, fileSize)
  | o :: rest =>
    match downfileAttempt fileSize o with
    | (.ok _, ns) => (.ok true, ns)
    | (.error e, ns) => if rest.isEmpty then (.error e, ns) else downfileLoop ns rest

/-- No attempt shrinks the partial file: the on-disk size only grows. -/
theorem downfileAttempt_size (fileSize : Nat) (o : AttemptOutcome) :
    fileSize ≤ (downfileAttempt fileSize o).2 := by
  cases o with
  | timeout d => exact Nat.le_add_right _ _
  | raiseErr d => exact Nat.le_add_right _ _
  | response c d =>
    dsimp [downfileAttempt]
    split <;> exact Nat.le_add_right _ _

/-! ## Claim C7 — downloader result contract -/

/-- C7, counterexample.  With `maxAttempts = 1` and the single attempt timing
out after writing 5 bytes, `downfile` re-raises the timeout to its caller: it
returns neither success nor a failure value, refuting "returns failure to the
caller without propagating an exception".  The 5-byte partial file stays. -/
theorem downfile_raises_cex :
    downfileLoop 0 [AttemptOutcome.timeout 5] = (.error DlErr.timeout, 5)
    ∧ (Except.error DlErr.timeout : Except DlErr Bool) ≠ .ok true
    ∧ (Except.error DlErr.timeout : Except DlErr Bool) ≠ .ok false :=
  ⟨rfl, by simp, by simp⟩

/-- C7, amended: for every call with `maxAttempts ≥ 1`, `downfile` either
returns success or, once the attempts are exhausted, re-raises the last
attempt's exception to the caller (it never returns a failure value), and the
partial file at the destination is never truncated — it is left in place for
the caller and for resume. -/
theorem downfile_success_or_raises
    (fileSize : Nat) (atts : List AttemptOutcome) (hne : atts ≠ []) :
    ((downfileLoop fileSize atts).1 = .ok true
      ∨ ∃ e, (downfileLoop fileSize atts).1 = .error e)
    ∧ fileSize ≤ (downfileLoop fileSize atts).2 := by
  induction atts generalizing fileSize with
  | nil => exact absurd rfl hne
  | cons o rest ih =>
    rw [downfileLoop]
    rcases ha : downfileAttempt fileSize o with ⟨res, ns⟩
    have hsz : fileSize ≤ ns := by
      have := downfileAttempt_size fileSize o
      rw [ha] at this
      exact this
    cases res with
    | ok u => exact ⟨Or.inl rfl, hsz⟩
    | error e =>
      dsimp only
      cases hre : rest.isEmpty with
      | true =>
        rw [if_pos rfl]
        exact ⟨Or.inr ⟨e, rfl⟩, hsz⟩
      | false =>
        rw [if_neg (by simp)]
        have hrest : rest ≠ [] := by
          intro hc
          rw [hc] at hre
          exact absurd hre (by simp)
        obtain ⟨h1, h2⟩ := ih ns hrest
        exact ⟨h1, le_trans hsz h2⟩

/-- Witness for `downfile_success_or_raises` at `maxAttempts = 1` with a
timed-out attempt. -/
theorem downfile_success_or_raises_witness :
    ((downfileLoop 0 [AttemptOutcome.timeout 5]).1 = .ok true
      ∨ ∃ e, (downfileLoop 0 [AttemptOutcome.timeout 5]).1 = .error e)
    ∧ 0 ≤ (downfileLoop 0 [AttemptOutcome.timeout 5]).2 :=
  downfile_success_or_raises 0 [AttemptOutcome.timeout 5] (by decide)

/-! ## Media Assembler (`Dynamic.downvideo` and `Dynamic.combineVideoAudio`,
`Dynamic.py` 586-732)

The working directory is reduced to the three files one video acquisition
touches: the two temp streams `<bvid>_video.tmp` / `<bvid>_audio.tmp` and the
final container.  One whole-video attempt either succeeds or fails at one of
its steps: page fetch, playinfo parse, video-stream download, audio-stream
download, or the ffmpeg mux. -/

/-- Presence of the per-video files in the working directory. -/
structure VFs where
  vtmp : Bool
  atmp : Bool
  final : Bool
deriving Repr, DecidableEq

/-- The cleanup at `Dynamic.py` 662-668 (and 698-702 / 727-731 inside
`combineVideoAudio`): remove whichever temp streams exist. -/
def cleanupTmp (f : VFs) : VFs := { f with vtmp := false, atmp := false }

/-- Where one whole-video attempt fails, if anywhere. -/
inductive VStep where
  | ok
  | failFetch
  | failParse
  | failVideoDl
  | failAudioDl
  | failMux
deriving Repr, DecidableEq

/-- One attempt of `downvideo` (`Dynamic.py` 601-677).  A fetch or parse
failure raises before any temp file is written; a video-stream download
failure leaves a partial `_video.tmp`; an audio-stream failure leaves a full
`_video.tmp` and a partial `_audio.tmp`; a mux failure leaves both temps and
`combineVideoAudio` deletes them before re-raising (the `except` at 660-668
then re-deletes, a no-op).  Every failure path runs the temp cleanup and
yields `false` to the retry loop; success muxes to the final container and
deletes both temps. -/
def runAttempt (fs : VFs) (s : VStep) : VFs × Bool :=
  match s with
  | .ok => ({ vtmp := false, atmp := false, final := true }, true)
  | .failFetch => (cleanupTmp fs, false)
  | .failParse => (cleanupTmp fs, false)
  | .failVideoDl => (cleanupTmp { fs with vtmp := true }, false)
  | .failAudioDl => (cleanupTmp { fs with vtmp := true, atmp := true }, false)
  | .failMux => (cleanupTmp { fs with vtmp := true, atmp := true }, false)

/-- Whole-video retry loop of `downvideo` (`Dynamic.py` 601-677): after a
failed attempt it waits with capped backoff and retries while attempts
remain, returning `False` after the last one. -/
def downvideo (fs : VFs) : List VStep → VFs × Bool
  | [] => (fs, false)
  | s :: rest =>
    match runAttempt fs s with
    | (fs2, true) => (fs2, true)
    | (fs2, false) => if rest.isEmpty then (fs2, false) else downvideo fs2 rest

/-! ## Claim C8 — temp-file cleanup on video-acquisition failure -/

/-- Any failing attempt of `downvideo` leaves no temp stream and reports
failure. -/
theorem runAttempt_cleanup (fs : VFs) (s : VStep) (hs : s ≠ .ok) :
    (runAttempt fs s).1.vtmp = false ∧ (runAttempt fs s).1.atmp = false
      ∧ (runAttempt fs s).2 = false := by
  cases s with
  | ok => exact absurd rfl hs
  | failFetch => exact ⟨rfl, rfl, rfl⟩
  | failParse => exact ⟨rfl, rfl, rfl⟩
  | failVideoDl => exact ⟨rfl, rfl, rfl⟩
  | failAudioDl => exact ⟨rfl, rfl, rfl⟩
  | failMux => exact ⟨rfl, rfl, rfl⟩

/-- C8: after any failed attempt — wherever it failed, the mux step included —
no temp stream file remains in the working directory and the failure is
surfaced to the retry loop; and a run whose attempts all fail returns failure
to the caller with no temp stream file left. -/
theorem downvideo_failed_attempt_cleanup
    (fs fs0 : VFs) (s : VStep) (steps : List VStep)
    (hs : s ≠ .ok)
    (hsteps : ∀ t ∈ steps, t ≠ .ok) (hne : steps ≠ []) :
    ((runAttempt fs s).1.vtmp = false ∧ (runAttempt fs s).1.atmp = false
      ∧ (runAttempt fs s).2 = false)
    ∧ ((downvideo fs0 steps).1.vtmp = false ∧ (downvideo fs0 steps).1.atmp = false
      ∧ (downvideo fs0 steps).2 = false) := by
  refine ⟨runAttempt_cleanup fs s hs, ?_⟩
  induction steps generalizing fs0 with
  | nil => exact absurd rfl hne
  | cons t ts ih =>
    have ht : t ≠ VStep.ok := hsteps t (List.mem_cons_self t ts)
    have hcl := runAttempt_cleanup fs0 t ht
    rw [downvideo]
    rcases hr : runAttempt fs0 t with ⟨fs2, ok2⟩
    rw [hr] at hcl
    obtain ⟨hv, ha2, hok2⟩ := hcl
    subst hok2
    dsimp only
    cases hts : ts.isEmpty with
    | true =>
      rw [if_pos rfl]
      exact ⟨hv, ha2, rfl⟩
    | false =>
      rw [if_neg (by simp)]
      have hts2 : ts ≠ [] := by
        intro hc; rw [hc] at hts; exact absurd hts (by simp)
      exact ih fs2 (fun q hq => hsteps q (List.mem_cons_of_mem _ hq)) hts2

/-- Witness for `downvideo_failed_attempt_cleanup`: a mux-step failure
attempt on a dirty directory, and a two-attempt run failing at mux then at
the page fetch. -/
theorem downvideo_failed_attempt_cleanup_witness :
    ((runAttempt ⟨true, true, false⟩ .failMux).1.vtmp = false
      ∧ (runAttempt ⟨true, true, false⟩ .failMux).1.atmp = false
      ∧ (runAttempt ⟨true, true, false⟩ .failMux).2 = false)
    ∧ ((downvideo ⟨false, false, false⟩ [.failMux, .failFetch]).1.vtmp = false
      ∧ (downvideo ⟨false, false, false⟩ [.failMux, .failFetch]).1.atmp = false
      ∧ (downvideo ⟨false, false, false⟩ [.failMux, .failFetch]).2 = false) :=
  downvideo_failed_attempt_cleanup ⟨true, true, false⟩ ⟨false, false, false⟩
    .failMux [.failMux, .failFetch] (by decide) (by decide) (by decide)

/-! ## Relocator (`Dynamic.move_files`, `Dynamic.py` 734-761) -/

/-- Result of one `move_files` call: whether the video was moved, which
working-directory images were moved, which remain, and whether an exception
cut the call short (the single surrounding `try`/`except` at 735-761 catches
it, so it never propagates). -/
structure MoveResult where
  movedVideo : Bool
  movedImages : List String
  remainingImages : List String
  aborted : Bool
deriving Repr, DecidableEq

/-- The image loop of `move_files` (`Dynamic.py` 753-759): each `shutil.move`
either succeeds (`imgOk`) or raises.  A raise is caught by the function-wide
handler, so the loop stops there: the images already moved stay moved, the
failing one and all later ones remain in the working directory. -/
def moveLoop (imgOk : String → Bool) :
    List String → List String × List String × Bool
  | [] => ([], [], false)
  | i :: rest =>
    if imgOk i then
      let (m, r, ab) := moveLoop imgOk rest
      (i :: m, r, ab)
    else ([], i :: rest, true)

/-- `Dynamic.move_files` (`Dynamic.py` 734-761).  `video = none` models a
call with `video_path = None`; `video = some (ex, mok)` a call with a path
that exists (`ex`) and whose move succeeds (`mok`).  An unset `final_dir`
returns immediately; a missing video path is only logged and the image loop
still runs; a raising video move is caught by the function-wide handler and
ends the call before any image is moved. -/
def move_files (finalDirSet : Bool) (video : Option (Bool × Bool))
    (images : List String) (imgOk : String → Bool) : MoveResult :=
  if !finalDirSet then ⟨false, [], images, false⟩
  else
    match video with
    | none =>
      let (m, r, ab) := moveLoop imgOk images
      ⟨false, m, r, ab⟩
    | some (ex, mok) =>
      if !ex then
        let (m, r, ab) := moveLoop imgOk images
        ⟨false, m, r, ab⟩
      else if mok then
        let (m, r, ab) := moveLoop imgOk images
        ⟨true, m, r, ab⟩
      else ⟨false, [], images, true⟩

/-! ## Claim C9 — relocator per-file independence -/

/-- C9, counterexample.  Two loose images `a`, `b`; moving `a` raises.  The
claim says the failure does not block the other moves, but the function-wide
`try`/`except` ends the call: `b` is not moved and stays in the working
directory. -/
theorem move_files_loop_aborts_cex :
    (move_files true none ["a", "b"] (fun si => !(si == "a"))).movedImages = []
    ∧ (move_files true none ["a", "b"] (fun si => !(si == "a"))).remainingImages
        = ["a", "b"]
    ∧ "b" ∈ (move_files true none ["a", "b"]
        (fun si => !(si == "a"))).remainingImages :=
  ⟨rfl, rfl, by decide⟩

/-- C9, amended: a MISSING video source file is only logged — the image moves
all still run, exactly as in a call with no video path; but a move that
RAISES (for the video or for any image) is caught by the single function-wide
handler, which ends the whole call without propagating: the images before the
failing one stay moved and no later file is moved in this call. -/
theorem move_files_missing_video_and_abort
    (mok : Bool) (images pre post : List String)
    (imgOk : String → Bool) (i : String)
    (hpre : ∀ j ∈ pre, imgOk j = true) (hbad : imgOk i = false) :
    move_files true (some (false, mok)) images imgOk
      = move_files true none images imgOk
    ∧ moveLoop imgOk (pre ++ i :: post) = (pre, i :: post, true) := by
  constructor
  · rfl
  · induction pre with
    | nil =>
      rw [List.nil_append, moveLoop, if_neg (by rw [hbad]; exact Bool.false_ne_true)]
    | cons j js ih =>
      have hj : imgOk j = true := hpre j (List.mem_cons_self j js)
      rw [List.cons_append, moveLoop, if_pos hj,
        ih (fun q hq => hpre q (List.mem_cons_of_mem _ hq))]

/-- Witness for `move_files_missing_video_and_abort`: one image moved before
the failure, one blocked behind it. -/
theorem move_files_missing_video_and_abort_witness :
    move_files true (some (false, true)) ["x", "a", "y"] (fun si => !(si == "a"))
      = move_files true none ["x", "a", "y"] (fun si => !(si == "a"))
    ∧ moveLoop (fun si => !(si == "a")) (["x"] ++ "a" :: ["y"])
      = (["x"], "a" :: ["y"], true) :=
  move_files_missing_video_and_abort true ["x", "a", "y"] ["x"] ["y"]
    (fun si => !(si == "a")) "a" (by decide) (by decide)

/-! ## Claim C6 — classification totality -/

/-- Minimal well-formed video item (`DYNAMIC_TYPE_AV`). -/
def avFixture : RawItem :=
  { id_str := "1", tagText := none, comment_id_str := "100", comment_type := 1,
    dtype := "DYNAMIC_TYPE_AV", desc_text := some "d",
    major := some (.archive "T" "D" "C" "//www.bilibili.com/video/BV1/"),
    orig_id_str := none }

/-- Minimal well-formed image post (`DYNAMIC_TYPE_DRAW`) whose `major` block
is JSON `null`: a caption but no images. -/
def drawFixture : RawItem :=
  { id_str := "2", tagText := none, comment_id_str := "200", comment_type := 11,
    dtype := "DYNAMIC_TYPE_DRAW", desc_text := some "cap",
    major := none, orig_id_str := none }

/-- Minimal well-formed text post (`DYNAMIC_TYPE_WORD`). -/
def wordFixture : RawItem := wordItem "3"

/-- Minimal well-formed repost (`DYNAMIC_TYPE_FORWARD`). -/
def forwardFixture : RawItem :=
  { id_str := "4", tagText := none, comment_id_str := "400", comment_type := 17,
    dtype := "DYNAMIC_TYPE_FORWARD", desc_text := some "fw",
    major := none, orig_id_str := some "9" }

/-- Minimal item of an unrecognized variant (the catch-all branch). -/
def unsupportedFixture : RawItem :=
  { id_str := "5", tagText := none, comment_id_str := "500", comment_type := 17,
    dtype := "DYNAMIC_TYPE_LIVE_RCMD", desc_text := none,
    major := none, orig_id_str := none }

/-- C6: on a minimal well-formed item of each of the five content variants,
`toDynamicData` returns (raising nothing) a record carrying the item's id,
comment target id, comment type and content type, with the variant's fields
extracted per its rule; the image post whose `major` block is null yields an
empty image list. -/
theorem toDynamicData_totality :
    toDynamicData avFixture = .ok
      { id := "1", aid := "100", comment_type := 1, dtype := "DYNAMIC_TYPE_AV",
        title := "投稿动态：d\n\nT", text := "D", imagepath := ["C"],
        videopath := "https://www.bilibili.com/video/BV1/" }
    ∧ toDynamicData drawFixture = .ok
      { id := "2", aid := "200", comment_type := 11, dtype := "DYNAMIC_TYPE_DRAW",
        title := "图文动态", text := "cap", imagepath := [], videopath := "" }
    ∧ toDynamicData wordFixture = .ok
      { id := "3", aid := "3", comment_type := 17, dtype := "DYNAMIC_TYPE_WORD",
        title := "文字动态", text := "t", imagepath := [], videopath := "" }
    ∧ toDynamicData forwardFixture = .ok
      { id := "4", aid := "400", comment_type := 17,
        dtype := "DYNAMIC_TYPE_FORWARD",
        title := "转发的动态链接：9", text := "fw", imagepath := [],
        videopath := "" }
    ∧ toDynamicData unsupportedFixture = .ok
      { id := "5", aid := "500", comment_type := 17,
        dtype := "DYNAMIC_TYPE_LIVE_RCMD",
        title := "", text := "暂不支持的类型", imagepath := [], videopath := "" } :=
  ⟨rfl, rfl, rfl, rfl, rfl⟩

/-! ## Claim C10 — the shared `datajson` template is never mutated

`da = self.datajson.copy()` (`Dynamic.py` 823) is a SHALLOW copy: the copy's
`imagepath` entry initially aliases the class-level template's list.  To
settle the aliasing claim, the classifier is re-modelled at the reference
level: Python lists live in a heap of cells and `imagepath` fields hold cell
indices.  Cell 0 is the template's list, allocated at class-load time. -/

/-- Heap of list cells; index 0 is the `datajson` template's `imagepath`. -/
structure AliasHeap where
  cells : List (List String)
deriving Repr, DecidableEq

/-- Allocate a fresh list cell (a Python list display such as `[]` or
`[cover]`), returning the new heap and the cell's index. -/
def allocCell (h : AliasHeap) (v : List String) : AliasHeap × Nat :=
  (⟨h.cells ++ [v]⟩, h.cells.length)

/-- Mutate one cell in place (a Python `list.append` rebinds nothing). -/
def setCell (h : AliasHeap) (i : Nat) (v : List String) : AliasHeap :=
  ⟨h.cells.set i v⟩

/-- Read a cell. -/
def getCell (h : AliasHeap) (i : Nat) : List String :=
  h.cells.getD i []

/-- The heap at class-load time: only the template's empty list. -/
def heap0 : AliasHeap := ⟨[[]]⟩

/-- Reference-level normalized record: `imagepathRef` is a heap cell index;
the remaining mutable-relevant fields are plain values (Python strings are
immutable, so their sharing is unobservable). -/
structure DynDataRef where
  id : String
  title : String
  text : String
  imagepathRef : Nat
  videopath : String
deriving Repr, DecidableEq

/-- The template record: its `imagepath` is cell 0. -/
def templateRef : DynDataRef := ⟨"", "", "", 0, ""⟩

/-- `Dynamic.toDynamicData` at the reference level (`Dynamic.py` 821-866).
The shallow copy keeps `imagepathRef = 0`, aliasing the template; the AV
branch REBINDS it to a fresh one-element cell (line 841); the DRAW branch
rebinds it to a fresh empty cell (line 848) and then appends into that fresh
cell (line 851) — note the fresh cell is allocated even when the branch later
raises on an unexpected `major` shape (line 850); the WORD, FORWARD and
catch-all branches never touch `imagepath`, so their records keep aliasing
cell 0 without writing to it. -/
def toDynamicDataRef (h : AliasHeap) (item : RawItem) :
    AliasHeap × Except String DynDataRef :=
  let da : DynDataRef := { templateRef with id := item.id_str }
  if item.dtype = "DYNAMIC_TYPE_AV" then
    match item.major with
    | some (.archive title desc cover jump_url) =>
      let a := item.desc_text.getD ""
      let a := if a ≠ "" then "投稿动态：" ++ a ++ "\n\n" else a
      ((allocCell h [cover]).1,
       .ok { da with
             title := a ++ title, text := desc,
             imagepathRef := (allocCell h [cover]).2,
             videopath := "https:" ++ jump_url })
    | _ => (h, .error "KeyError")
  else if item.dtype = "DYNAMIC_TYPE_DRAW" then
    match item.desc_text with
    | none => (h, .error "KeyError")
    | some t =>
      match item.major with
      | none =>
        ((allocCell h []).1,
         .ok { da with
               title := "图文动态", text := t,
               imagepathRef := (allocCell h []).2 })
      | some (.draw srcs) =>
        (srcs.foldl
          (fun h2 src =>
            setCell h2 (allocCell h []).2 (getCell h2 (allocCell h []).2 ++ [src]))
          (allocCell h []).1,
         .ok { da with
               title := "图文动态", text := t,
               imagepathRef := (allocCell h []).2 })
      | some _ => ((allocCell h []).1, .error "KeyError")
  else if item.dtype = "DYNAMIC_TYPE_WORD" then
    match item.desc_text with
    | none => (h, .error "KeyError")
    | some t => (h, .ok { da with title := "文字动态", text := t })
  else if item.dtype = "DYNAMIC_TYPE_FORWARD" then
    match item.orig_id_str with
    | none => (h, .error "KeyError")
    | some oid =>
      match item.desc_text with
      | none => (h, .error "KeyError")
      | some t => (h, .ok { da with title := "转发的动态链接：" ++ oid, text := t })
  else
    (h, .ok { da with text := "暂不支持的类型" })

/-- Writing a cell of positive index leaves cell 0 unchanged. -/
theorem getCell_setCell_zero (hh : AliasHeap) (r : Nat) (hr : 1 ≤ r)
    (v : List String) : getCell (setCell hh r v) 0 = getCell hh 0 := by
  unfold getCell setCell
  obtain ⟨n, rfl⟩ : ∃ n, r = n + 1 := ⟨r - 1, by omega⟩
  cases hc : hh.cells with
  | nil => rfl
  | cons c cs => rfl

/-- Allocating a fresh cell leaves cell 0 of a non-empty heap unchanged. -/
theorem getCell_allocCell_zero (h : AliasHeap) (v : List String)
    (hlen : 1 ≤ h.cells.length) :
    getCell (allocCell h v).1 0 = getCell h 0 := by
  unfold getCell allocCell
  cases hc : h.cells with
  | nil => rw [hc] at hlen; simp at hlen
  | cons c cs => rfl

/-- Allocation grows the heap by one cell. -/
theorem allocCell_len (h : AliasHeap) (v : List String) :
    (allocCell h v).1.cells.length = h.cells.length + 1 := by
  simp [allocCell]

/-- The DRAW branch's append loop, writing only to cell `r ≥ 1`, leaves
cell 0 and the heap size unchanged. -/
theorem foldl_setCell_preserves (r : Nat) (hr : 1 ≤ r) (srcs : List String) :
    ∀ hh : AliasHeap,
      getCell (srcs.foldl (fun h2 src => setCell h2 r (getCell h2 r ++ [src])) hh) 0
          = getCell hh 0
      ∧ (srcs.foldl (fun h2 src => setCell h2 r (getCell h2 r ++ [src])) hh).cells.length
          = hh.cells.length := by
  induction srcs with
  | nil => intro hh; exact ⟨rfl, rfl⟩
  | cons s ss ih =>
    intro hh
    rw [List.foldl_cons]
    obtain ⟨i1, i2⟩ := ih (setCell hh r (getCell hh r ++ [s]))
    refine ⟨i1.trans (getCell_setCell_zero hh r hr _), i2.trans ?_⟩
    simp [setCell]

/-- One classifier call neither shrinks the heap nor touches cell 0. -/
theorem toDynamicDataRef_preserves_template (h : AliasHeap) (item : RawItem)
    (hlen : 1 ≤ h.cells.length) :
    getCell (toDynamicDataRef h item).1 0 = getCell h 0
    ∧ 1 ≤ (toDynamicDataRef h item).1.cells.length := by
  have halloc : ∀ v : List String,
      getCell (allocCell h v).1 0 = getCell h 0
      ∧ 1 ≤ (allocCell h v).1.cells.length := fun v =>
    ⟨getCell_allocCell_zero h v hlen, by rw [allocCell_len]; omega⟩
  unfold toDynamicDataRef
  repeat' split
  all_goals
    first
      | exact ⟨rfl, hlen⟩
      | exact halloc _
      | refine ⟨(foldl_setCell_preserves (allocCell h ([] : List String)).2 hlen _ _).1.trans
            (getCell_allocCell_zero h [] hlen), ?_⟩
        rw [(foldl_setCell_preserves (allocCell h ([] : List String)).2 hlen _ _).2,
          allocCell_len]
        omega

/-- Heap evolution over any sequence of classifier calls, starting at class
load time. -/
def runClassifier (items : List RawItem) : AliasHeap :=
  items.foldl (fun hh it => (toDynamicDataRef hh it).1) heap0

/-- Cell 0 survives a fold of classifier calls over any non-empty heap. -/
theorem runClassifier_aux (items : List RawItem) :
    ∀ h : AliasHeap, 1 ≤ h.cells.length →
      getCell (items.foldl (fun hh it => (toDynamicDataRef hh it).1) h) 0
          = getCell h 0
      ∧ 1 ≤ (items.foldl (fun hh it => (toDynamicDataRef hh it).1) h).cells.length := by
  induction items with
  | nil => intro h hh; exact ⟨rfl, hh⟩
  | cons it its ih =>
    intro h hh
    rw [List.foldl_cons]
    have step := toDynamicDataRef_preserves_template h it hh
    obtain ⟨i1, i2⟩ := ih _ step.2
    exact ⟨i1.trans step.1, i2⟩

/-- C10: after any sequence of classifier calls, the shared class-level
`datajson` template is unchanged — its `imagepath` cell (cell 0, which every
fresh shallow copy initially aliases) still holds the empty list, because
every variant that adds image URLs first rebinds `imagepath` to a freshly
allocated cell. -/
theorem datajson_template_not_mutated (items : List RawItem) :
    getCell (runClassifier items) 0 = [] ∧ templateRef.imagepathRef = 0 :=
  ⟨(runClassifier_aux items heap0 (by simp [heap0])).1, rfl⟩

end BiliDyn
